import Mathlib

/-!
Shallow embedding of the bulk-image-downloader pipeline
(`src/app/api/process/route.ts` and `src/app/api/download/route.ts`).

External effects (the Bing HTTP response, per-URL image fetches, the
archiver stream, the filesystem) are abstracted as oracle data supplied
in an environment record; every piece of control flow, string handling
and state mutation of the TypeScript source is translated directly.
String scanning primitives are implemented by structural recursion over
character lists so that all definitions evaluate inside the kernel.
-/

namespace BulkImageDownloader

/-- JS `String(v)` applied to a possibly-absent cell value:
`String(undefined)` is `"undefined"`. -/
def jsString (v : Option String) : String := v.getD "undefined"

/-- JS `a || b` over two optional string attributes: an absent attribute and
the empty string are both falsy and fall through to `b`. -/
def jsOrStr (a b : Option String) : Option String :=
  match a with
  | some s => if s = "" then b else some s
  | none => b

/-- Prefix test: `hasPrefixCL pat s` holds when `pat` is a prefix of `s`. -/
def hasPrefixCL : List Char → List Char → Bool
  | [], _ => true
  | _ :: _, [] => false
  | p :: ps, c :: cs => p = c && hasPrefixCL ps cs

/-- Occurrence test: `containsCL pat s` holds when `pat` occurs inside `s`. -/
def containsCL (pat : List Char) : List Char → Bool
  | [] => pat.isEmpty
  | c :: cs => hasPrefixCL pat (c :: cs) || containsCL pat cs

/-- Substring test, the semantics of JS `String.prototype.includes`. -/
def strContains (s pat : String) : Bool := containsCL pat.data s.data

/-- The `s.startsWith("http")` test of the tier-2 extraction filter. -/
def startsWithHttp (s : String) : Bool := hasPrefixCL "http".data s.data

/-- Semantics of `.replace(/\\u002f/g, "/")`: every occurrence of the six-character
literal text `/` is rewritten to `/`, scanning left to right. -/
def replaceEscapedSlashesAux : List Char → List Char
  | [] => []
  | '\\' :: 'u' :: '0' :: '0' :: '2' :: 'f' :: rest => '/' :: replaceEscapedSlashesAux rest
  | c :: rest => c :: replaceEscapedSlashesAux rest

/-- String form of `replaceEscapedSlashesAux`. -/
def normalizeMurl (s : String) : String := String.mk (replaceEscapedSlashesAux s.data)

/-- Semantics of `String(row.image_name).replace(/[/\\]/g, " ")`: each `/` or `\`
character of the search phrase becomes a space. -/
def sanitizePhrase (s : String) : String :=
  String.mk (s.data.map fun c => if c = '/' || c = '\\' then ' ' else c)

/-! ### Path model

`path.join` for the absolute base paths used by the routes: the joined
segments are normalized (empty and `.` segments dropped, `..` popping the
previous segment, excess `..` dropped at the root, as Node does for
absolute paths) and reassembled as an absolute path. -/

/-- Split a character list at `/` separators. -/
def splitCL : List Char → List Char → List (List Char)
  | [], acc => [acc.reverse]
  | c :: cs, acc => if c = '/' then acc.reverse :: splitCL cs [] else splitCL cs (c :: acc)

/-- Split a string into its `/`-separated segments. -/
def splitSlashes (s : String) : List String := (splitCL s.data []).map String.mk

/-- One step of segment normalization. -/
def normStep (acc : List String) (seg : String) : List String :=
  if seg = "" || seg = "." then acc
  else if seg = ".." then acc.dropLast
  else acc ++ [seg]

/-- Reassemble segments with `/`. -/
def joinSegs : List String → String
  | [] => ""
  | [s] => s
  | s :: rest => s ++ "/" ++ joinSegs rest

/-- Node `path.join a b` for an absolute `a`. -/
def pathJoin (a b : String) : String :=
  "/" ++ joinSegs ((splitSlashes a ++ splitSlashes b).foldl normStep [])

/-- Whether `p` resolves to a location strictly inside directory `dir`. -/
def isWithinDir (dir p : String) : Bool := hasPrefixCL (dir ++ "/").data p.data

/-- The value of `os.tmpdir()`. -/
def tmpdir : String := "/tmp"

/-! ### Phrase Resolver (`searchBingImages`)

The HTTP response is abstracted as a `BingPage`: the per-result anchors
(`a.iusc`, whose `m` attribute the code JSON-parses for a `murl` field),
the loose image elements (`img.mimg` with `src`/`data-src` attributes) and
the raw-markup regex captures. A `none` response models any transport
failure, timeout or non-success status, which the code's `catch` turns
into an empty list. -/

/-- One `a.iusc` anchor: `murl` is the media URL recovered from the `m`
attribute, `none` when the attribute is absent or its JSON fails to parse
or lacks a `murl` field. -/
structure IuscAnchor where
  murl : Option String
  deriving DecidableEq, Repr

/-- One `img.mimg` element with its two candidate source attributes. -/
structure MimgElement where
  src : Option String
  dataSrc : Option String
  deriving DecidableEq, Repr

/-- Abstracted Bing search-results page: what each extraction tier would
recover from the markup. -/
structure BingPage where
  iuscAnchors : List IuscAnchor
  mimgElements : List MimgElement
  rawMurlMatches : List String
  deriving DecidableEq, Repr

/-- Tier 1: canonical `murl` of every anchor whose attribute parsed and
whose `murl` field is truthy. -/
def extractTier1 (p : BingPage) : List String :=
  p.iuscAnchors.filterMap fun a =>
    match a.murl with
    | some s => if s = "" then none else some s
    | none => none

/-- Tier 2: `src || data-src` of every image element, kept only when the
resulting attribute is an absolute `http` URL. -/
def extractTier2 (p : BingPage) : List String :=
  p.mimgElements.filterMap fun e =>
    match jsOrStr e.src e.dataSrc with
    | some s => if startsWithHttp s then some s else none
    | none => none

/-- Tier 3: the regex captures over the raw markup, with the escaped-slash
encoding normalized back to `/`. -/
def extractTier3 (p : BingPage) : List String :=
  p.rawMurlMatches.map normalizeMurl

/-- The three-tier fallback: a later tier runs only while `imageUrls` is
still empty. -/
def extractImageUrls (p : BingPage) : List String :=
  let u1 := extractTier1 p
  let u2 := if u1.length = 0 then u1 ++ extractTier2 p else u1
  if u2.length = 0 then u2 ++ extractTier3 p else u2

/-- The resolver `searchBingImages(query)`: on a transport failure return `[]`, else
extract by tiers and `.slice(0, 5)`. The query only forms the request URL
and does not influence extraction. -/
def searchBingImages (_query : String) (resp : Option BingPage) : List String :=
  match resp with
  | none => []
  | some p => (extractImageUrls p).take 5

/-! ### Image Fetcher (`downloadImage`) -/

/-- Abstracted HTTP response for one candidate URL: declared content type
header and body bytes. -/
structure HttpImageResponse where
  contentType : Option String
  data : List Nat
  deriving DecidableEq, Repr

/-- A fetched, viability-checked asset. -/
structure FetchedAsset where
  buffer : List Nat
  extension : String
  deriving DecidableEq, Repr

/-- The content-type classification chain of `downloadImage`. -/
def classifyExtension (ct : String) : String :=
  if strContains ct "png" then ".png"
  else if strContains ct "gif" then ".gif"
  else if strContains ct "webp" then ".webp"
  else if strContains ct "jpeg" || strContains ct "jpg" then ".jpg"
  else ".jpg"

/-- The fetcher `downloadImage(url)`: `none` on any transport failure, otherwise
classify the extension from `content-type || ""` and reject payloads under
1000 bytes. -/
def downloadImage (resp : Option HttpImageResponse) : Option FetchedAsset :=
  match resp with
  | none => none
  | some r =>
    let ct := r.contentType.getD ""
    let extension := classifyExtension ct
    if r.data.length < 1000 then none
    else some { buffer := r.data, extension := extension }

/-! ### Row Processor and Progress Channel (`POST`)

The POST handler is interpreted into an ordered trace of events: frames
written to the response stream, filesystem operations, the inter-row
sleep, and each invocation of `writer.close()`. -/

/-- Per-row lifecycle states. -/
inductive RowStatus
  | pending
  | downloading
  | success
  | failed
  deriving DecidableEq, Repr

/-- One entry of the `progressItems` array. -/
structure ProgressItem where
  id : String
  image_name : String
  status : RowStatus
  error : Option String
  deriving DecidableEq, Repr

/-- One parsed sheet row: the two required cells, absent when the row has
no such property (`sheet_to_json` omits empty cells). Present values carry
their JS stringification. -/
structure RawRow where
  idCell : Option String
  imageNameCell : Option String
  deriving DecidableEq, Repr

/-- A value thrown inside the per-row `try`: either an `Error` with a
message, or any other thrown value. -/
inductive JsThrown
  | errorWith (msg : String)
  | nonError
  deriving DecidableEq, Repr

/-- Mapping `err instanceof Error ? err.message : "Unknown error"`. -/
def thrownMessage : JsThrown → String
  | .errorWith m => m
  | .nonError => "Unknown error"

/-- Oracle data for one row's attempt. -/
structure RowEnv where
  /-- Bing response for this row's query (`none` = transport failure). -/
  page : Option BingPage
  /-- HTTP response for each candidate URL (`none` = transport failure). -/
  fetch : String → Option HttpImageResponse
  /-- Outcome of `fs.writeFileSync` on the first viable asset: `some t`
  means the write throws `t`. -/
  writeThrow : Option JsThrown

/-- Trace events of one POST request. -/
inductive Event
  | progress (items : List ProgressItem)
  | complete (downloadUrl : String)
  | error (message : String)
  | search (query : String)
  | mkdirTemp (dir : String)
  | mkdirZip (dir : String)
  | write (path : String) (bytes : List Nat)
  | sleep (ms : Nat)
  | archiveRun (dir : String)
  | rmTemp (dir : String) (failed : Bool)
  | closeWriter
  deriving DecidableEq, Repr

/-- Outcome of the body of one row's `try` block. -/
inductive AttemptOutcome
  | noImages
  | succeeded (path : String) (bytes : List Nat)
  | exhausted
  | threw (msg : String)
  deriving DecidableEq, Repr

/-- The inner candidate loop: try each URL in order; on the first viable
asset write `<id><extension>` into the working directory and stop; an
exception thrown by the write escapes the loop. -/
def tryCandidates (env : RowEnv) (tempDir rowId : String) : List String → AttemptOutcome
  | [] => .exhausted
  | url :: rest =>
    match downloadImage (env.fetch url) with
    | none => tryCandidates env tempDir rowId rest
    | some asset =>
      match env.writeThrow with
      | some t => .threw (thrownMessage t)
      | none => .succeeded (pathJoin tempDir (rowId ++ asset.extension)) asset.buffer

/-- The body of one row's `try` block. -/
def attemptRow (env : RowEnv) (tempDir rowId phrase : String) : AttemptOutcome :=
  let imageUrls := searchBingImages phrase env.page
  if imageUrls.length = 0 then .noImages
  else tryCandidates env tempDir rowId imageUrls

/-- In-place mutation of `progressItems[i]`. -/
def updateItem (items : List ProgressItem) (i : Nat) (f : ProgressItem → ProgressItem) :
    List ProgressItem :=
  match items[i]? with
  | some it => items.set i (f it)
  | none => items

/-- One iteration of the row loop: mark the row `downloading` and emit a
frame, run the attempt, record the outcome, emit the post-attempt frame,
and (except on the zero-candidates `continue` path) sleep 500 ms. Returns
the updated status array, the events emitted, and the files written. -/
def processRow (env : RowEnv) (tempDir : String) (i : Nat) (row : RawRow)
    (items : List ProgressItem) :
    List ProgressItem × List Event × List (String × List Nat) :=
  let rowId := jsString row.idCell
  let phrase := sanitizePhrase (jsString row.imageNameCell)
  let items1 := updateItem items i fun it => { it with status := .downloading }
  match attemptRow env tempDir rowId phrase with
  | .noImages =>
    let items2 := updateItem items1 i fun it =>
      { it with status := .failed, error := some "No images found" }
    (items2, [.progress items1, .search phrase, .progress items2], [])
  | .succeeded p bytes =>
    let items2 := updateItem items1 i fun it => { it with status := .success }
    (items2, [.progress items1, .search phrase, .write p bytes, .progress items2, .sleep 500],
      [(p, bytes)])
  | .exhausted =>
    let items2 := updateItem items1 i fun it =>
      { it with status := .failed, error := some "Failed to download image" }
    (items2, [.progress items1, .search phrase, .progress items2, .sleep 500], [])
  | .threw msg =>
    let items2 := updateItem items1 i fun it =>
      { it with status := .failed, error := some msg }
    (items2, [.progress items1, .search phrase, .progress items2, .sleep 500], [])

/-- The sequential row loop, rows dequeued strictly in input order. -/
def processRows (renv : Nat → RowEnv) (tempDir : String) :
    Nat → List RawRow → List ProgressItem →
    List ProgressItem × List Event × List (String × List Nat)
  | _, [], items => (items, [], [])
  | i, row :: rest, items =>
    let r1 := processRow (renv i) tempDir i row items
    let r2 := processRows renv tempDir (i + 1) rest r1.1
    (r2.1, r1.2.1 ++ r2.2.1, r1.2.2 ++ r2.2.2)

/-- Oracle data for one whole POST request. -/
structure Env where
  /-- Result of `formData.get("file")` and the parsed sheet: `none` models a missing
  file, `some rows` the rows `sheet_to_json` produced. -/
  upload : Option (List RawRow)
  /-- Per-row oracles, indexed by row position. -/
  rowEnv : Nat → RowEnv
  /-- Field where `some msg` models the archiver write stream reporting an error with
  message `msg`, rejecting the archive promise. -/
  archiveError : Option String
  /-- Result of `fs.existsSync(finalZipPath)` after the archive promise resolves. -/
  zipExists : Bool
  /-- Result of `fs.statSync(finalZipPath).size` (logged, never branched on). -/
  zipSize : Nat
  /-- The temp-directory `fs.rmSync` throws. -/
  rmThrow : Bool
  /-- Value of `Date.now()` at temp-directory creation. -/
  now : Nat
  /-- Value of `Date.now()` at ZIP naming. -/
  now2 : Nat

/-- First-row column validation: `("id" in firstRow) && ("image_name" in
firstRow)`. -/
def hasRequiredColumns (r : RawRow) : Bool := r.idCell.isSome && r.imageNameCell.isSome

/-- The initial all-`pending` status array built from the parsed rows. -/
def initItems (rows : List RawRow) : List ProgressItem :=
  rows.map fun r =>
    { id := jsString r.idCell, image_name := jsString r.imageNameCell
      status := .pending, error := none }

/-- The per-request working directory path. -/
def tempDirOf (env : Env) : String :=
  pathJoin tmpdir ("image-download-" ++ toString env.now)

/-- The events of the `try` block of the request body (everything before
the `finally`). Early validation exits invoke `writer.close()` themselves
before returning; the archive rejection jumps to the `catch`, which emits
an `error` frame — note the temp directory is only removed on the
non-throwing path. -/
def postBody (env : Env) : List Event :=
  match env.upload with
  | none => [.error "No file uploaded", .closeWriter]
  | some rows =>
    match rows with
    | [] => [.error "Excel file is empty", .closeWriter]
    | first :: _ =>
      if hasRequiredColumns first then
        let items0 := initItems rows
        let tempDir := tempDirOf env
        let rowEvs := (processRows env.rowEnv tempDir 0 rows items0).2.1
        let fileId := toString env.now2
        let zipDir := pathJoin tmpdir "image-downloader-zips"
        [.progress items0, .mkdirTemp tempDir] ++ rowEvs ++
          [.mkdirZip zipDir, .archiveRun tempDir] ++
          match env.archiveError with
          | some msg => [.error msg]
          | none =>
            (if env.zipExists then [.complete ("/api/download?id=" ++ fileId)]
             else [.error "Failed to create ZIP file"]) ++
            [.rmTemp tempDir env.rmThrow]
      else [.error "Excel file must have \"id\" and \"image_name\" columns", .closeWriter]

/-- The complete POST trace: the `try`/`catch` body followed by the
`finally` block's unconditional `writer.close()` invocation. -/
def POST (env : Env) : List Event := postBody env ++ [.closeWriter]

/-! ### Artifact Store retrieval (`GET` of `download/route.ts`) -/

/-- Character class `[a-zA-Z0-9]`. -/
def isAlphanumChar (c : Char) : Bool :=
  ('a' ≤ c && c ≤ 'z') || ('A' ≤ c && c ≤ 'Z') || ('0' ≤ c && c ≤ '9')

/-- Sanitization `fileId.replace(/[^a-zA-Z0-9]/g, "")`. -/
def sanitizeFileId (s : String) : String := String.mk (s.data.filter isAlphanumChar)

/-- The shared ZIP directory. -/
def zipDirPath : String := pathJoin tmpdir "image-downloader-zips"

/-- The artifact path consulted for a raw query identifier. -/
def zipPathFor (fid : String) : String :=
  pathJoin zipDirPath ("images-" ++ sanitizeFileId fid ++ ".zip")

/-- The retrieval response. -/
structure GetResponse where
  status : Nat
  contentType : Option String
  contentDisposition : Option String
  body : Option (List Nat)
  errorMsg : Option String
  deriving DecidableEq, Repr

/-- The filesystem visible to the retrieval route: path ↦ bytes. -/
def FileStore := List (String × List Nat)

/-- Combined `fs.existsSync` / `fs.readFileSync`. -/
def fsLookup (store : FileStore) (p : String) : Option (List Nat) :=
  (List.find? (fun kv => kv.1 = p) store).map (·.2)

/-- Deletion `fs.unlinkSync`. -/
def fsRemove (store : FileStore) (p : String) : FileStore :=
  List.filter (fun kv => !(kv.1 = p : Bool)) store

/-- The GET handler: 400 when the `id` parameter is absent (or falsy),
otherwise sanitize, look the artifact up, 404 when absent, else return the
bytes as a ZIP attachment and delete the file. Returns the response and
the filesystem afterward. -/
def downloadGET (store : FileStore) (fileId : Option String) : GetResponse × FileStore :=
  match fileId with
  | none =>
    ({ status := 400, contentType := none, contentDisposition := none,
       body := none, errorMsg := some "Missing file ID" }, store)
  | some fid =>
    if fid = "" then
      ({ status := 400, contentType := none, contentDisposition := none,
         body := none, errorMsg := some "Missing file ID" }, store)
    else
      let zipPath := zipPathFor fid
      match fsLookup store zipPath with
      | none =>
        ({ status := 404, contentType := none, contentDisposition := none,
           body := none, errorMsg := some "File not found. It may have expired." }, store)
      | some bytes =>
        ({ status := 200, contentType := some "application/zip",
           contentDisposition := some "attachment; filename=\"images.zip\"",
           body := some bytes, errorMsg := none }, fsRemove store zipPath)

/-! ### Event classifiers and counters -/

/-- The event is a `progress` frame. -/
def isProgressEv : Event → Bool
  | .progress _ => true
  | _ => false

/-- The event is the inter-row sleep. -/
def isSleepEv : Event → Bool
  | .sleep _ => true
  | _ => false

/-- The event is a `writer.close()` invocation. -/
def isCloseEv : Event → Bool
  | .closeWriter => true
  | _ => false

/-- The event is a frame written to the response stream. -/
def isFrameEv : Event → Bool
  | .progress _ => true
  | .complete _ => true
  | .error _ => true
  | _ => false

/-- Number of events of a kind in a trace. -/
def countEv (p : Event → Bool) (evs : List Event) : Nat := (evs.filter p).length

/-! ### Helper lemmas -/

lemma countEv_append (p : Event → Bool) (a b : List Event) :
    countEv p (a ++ b) = countEv p a + countEv p b := by
  simp [countEv, List.filter_append]

lemma getElem?_set_some {α : Type} :
    ∀ (l : List α) (i : Nat) (a b : α), l[i]? = some b → (l.set i a)[i]? = some a := by
  intro l
  induction l with
  | nil => intro i a b h; simp at h
  | cons x xs ih =>
    intro i a b h
    cases i with
    | zero => simp
    | succ n =>
      simp only [List.set, List.getElem?_cons_succ] at h ⊢
      exact ih n a b h

lemma map_set_eq {α β : Type} (g : α → β) :
    ∀ (l : List α) (i : Nat) (a b : α),
      l[i]? = some b → g a = g b → (l.set i a).map g = l.map g := by
  intro l
  induction l with
  | nil => intro i a b h; simp at h
  | cons x xs ih =>
    intro i a b h hg
    cases i with
    | zero =>
      simp only [List.getElem?_cons_zero, Option.some.injEq] at h
      subst h
      simp [List.set, hg]
    | succ n =>
      simp only [List.set, List.getElem?_cons_succ] at h ⊢
      simp only [List.map_cons]
      rw [ih n a b h hg]

lemma updateItem_getElem? (items : List ProgressItem) (i : Nat)
    (f : ProgressItem → ProgressItem) (it : ProgressItem) (h : items[i]? = some it) :
    (updateItem items i f)[i]? = some (f it) := by
  simp only [updateItem, h]
  exact getElem?_set_some items i (f it) it h

lemma updateItem_twice_getElem? (items : List ProgressItem) (i : Nat)
    (f g : ProgressItem → ProgressItem) (it : ProgressItem) (h : items[i]? = some it) :
    (updateItem (updateItem items i f) i g)[i]? = some (g (f it)) :=
  updateItem_getElem? _ i g (f it) (updateItem_getElem? items i f it h)

lemma updateItem_map_id (items : List ProgressItem) (i : Nat)
    (f : ProgressItem → ProgressItem) (hf : ∀ it, (f it).id = it.id) :
    (updateItem items i f).map (·.id) = items.map (·.id) := by
  unfold updateItem
  cases h : items[i]? with
  | none => rfl
  | some it => exact map_set_eq _ items i (f it) it h (hf it)

lemma updateItem_twice_map_id (items : List ProgressItem) (i : Nat)
    (f g : ProgressItem → ProgressItem) (hf : ∀ it, (f it).id = it.id)
    (hg : ∀ it, (g it).id = it.id) :
    (updateItem (updateItem items i f) i g).map (·.id) = items.map (·.id) := by
  rw [updateItem_map_id _ _ _ hg, updateItem_map_id _ _ _ hf]

lemma tryCandidates_append_skip (env : RowEnv) (tempDir rowId : String)
    (pre rest : List String) (hpre : ∀ u ∈ pre, downloadImage (env.fetch u) = none) :
    tryCandidates env tempDir rowId (pre ++ rest) = tryCandidates env tempDir rowId rest := by
  induction pre with
  | nil => rfl
  | cons u us ih =>
    have hu : downloadImage (env.fetch u) = none := hpre u (by simp)
    simp only [List.cons_append, tryCandidates, hu]
    exact ih fun v hv => hpre v (by simp [hv])

lemma tryCandidates_all_miss (env : RowEnv) (tempDir rowId : String) :
    ∀ l : List String, (∀ u ∈ l, downloadImage (env.fetch u) = none) →
      tryCandidates env tempDir rowId l = .exhausted := by
  intro l
  induction l with
  | nil => intro _; rfl
  | cons u us ih =>
    intro h
    have hu : downloadImage (env.fetch u) = none := h u (by simp)
    simp only [tryCandidates, hu]
    exact ih fun v hv => h v (by simp [hv])

lemma tryCandidates_succeeded_path (env : RowEnv) (tempDir rowId : String) :
    ∀ (l : List String) (p : String) (bytes : List Nat),
      tryCandidates env tempDir rowId l = .succeeded p bytes →
      ∃ ext, p = pathJoin tempDir (rowId ++ ext) := by
  intro l
  induction l with
  | nil => intro p bytes h; simp [tryCandidates] at h
  | cons u us ih =>
    intro p bytes h
    simp only [tryCandidates] at h
    cases hd : downloadImage (env.fetch u) with
    | none => rw [hd] at h; exact ih p bytes h
    | some asset =>
      rw [hd] at h
      cases hw : env.writeThrow with
      | some t => rw [hw] at h; simp at h
      | none =>
        rw [hw] at h
        simp only [AttemptOutcome.succeeded.injEq] at h
        exact ⟨asset.extension, h.1.symm⟩

/-! ### Claim C1 -/

/-- Claim C1: For every record processed by the Row Processor: zero
candidates from the resolver make the row `failed` with cause
"No images found"; otherwise candidates are tried in order and on the
first viable asset the bytes are written under `<id><extension>` in the
working directory, the row becomes `success` and the outcome is
independent of the candidates after the first viable one; if every
candidate is exhausted without a viable asset the row becomes `failed`
with cause "Failed to download image"; an exception thrown during the
attempt is caught and mapped to `failed` with the exception's message; and
the loop always continues with the remaining rows afterward. -/
theorem C1_rowProcessor (env : RowEnv) (tempDir : String) (i : Nat) (row : RawRow)
    (items : List ProgressItem) (it : ProgressItem) (h : items[i]? = some it) :
    (searchBingImages (sanitizePhrase (jsString row.imageNameCell)) env.page = [] →
      (processRow env tempDir i row items).1[i]? =
        some { it with status := .failed, error := some "No images found" }) ∧
    (∀ pre url post asset,
      searchBingImages (sanitizePhrase (jsString row.imageNameCell)) env.page =
        pre ++ url :: post →
      (∀ u ∈ pre, downloadImage (env.fetch u) = none) →
      downloadImage (env.fetch url) = some asset →
      env.writeThrow = none →
      (processRow env tempDir i row items).1[i]? = some { it with status := .success } ∧
      Event.write (pathJoin tempDir (jsString row.idCell ++ asset.extension)) asset.buffer ∈
        (processRow env tempDir i row items).2.1) ∧
    (searchBingImages (sanitizePhrase (jsString row.imageNameCell)) env.page ≠ [] →
      (∀ u ∈ searchBingImages (sanitizePhrase (jsString row.imageNameCell)) env.page,
        downloadImage (env.fetch u) = none) →
      (processRow env tempDir i row items).1[i]? =
        some { it with status := .failed, error := some "Failed to download image" }) ∧
    (∀ pre url post asset t,
      searchBingImages (sanitizePhrase (jsString row.imageNameCell)) env.page =
        pre ++ url :: post →
      (∀ u ∈ pre, downloadImage (env.fetch u) = none) →
      downloadImage (env.fetch url) = some asset →
      env.writeThrow = some t →
      (processRow env tempDir i row items).1[i]? =
        some { it with status := .failed, error := some (thrownMessage t) }) ∧
    (∀ (renv : Nat → RowEnv) (rest : List RawRow),
      (processRows renv tempDir i (row :: rest) items).2.1 =
        (processRow (renv i) tempDir i row items).2.1 ++
        (processRows renv tempDir (i + 1) rest (processRow (renv i) tempDir i row items).1).2.1) := by
  refine ⟨?_, ?_, ?_, ?_, ?_⟩
  · intro hs
    have hA : attemptRow env tempDir (jsString row.idCell)
        (sanitizePhrase (jsString row.imageNameCell)) = .noImages := by
      simp [attemptRow, hs]
    simp only [processRow, hA]
    exact updateItem_twice_getElem? items i (fun x => { x with status := .downloading })
      (fun x => { x with status := .failed, error := some "No images found" }) it h
  · intro pre url post asset hs hpre hurl hw
    have hA : attemptRow env tempDir (jsString row.idCell)
        (sanitizePhrase (jsString row.imageNameCell)) =
        .succeeded (pathJoin tempDir (jsString row.idCell ++ asset.extension)) asset.buffer := by
      simp only [attemptRow, hs]
      rw [if_neg (by simp)]
      rw [tryCandidates_append_skip env tempDir (jsString row.idCell) pre (url :: post) hpre]
      simp [tryCandidates, hurl, hw]
    constructor
    · simp only [processRow, hA]
      exact updateItem_twice_getElem? items i (fun x => { x with status := .downloading })
        (fun x => { x with status := .success }) it h
    · simp [processRow, hA]
  · intro hne hall
    have hA : attemptRow env tempDir (jsString row.idCell)
        (sanitizePhrase (jsString row.imageNameCell)) = .exhausted := by
      simp only [attemptRow]
      rw [if_neg (by simpa using hne)]
      exact tryCandidates_all_miss env tempDir (jsString row.idCell) _ hall
    simp only [processRow, hA]
    exact updateItem_twice_getElem? items i (fun x => { x with status := .downloading })
      (fun x => { x with status := .failed, error := some "Failed to download image" }) it h
  · intro pre url post asset t hs hpre hurl hw
    have hA : attemptRow env tempDir (jsString row.idCell)
        (sanitizePhrase (jsString row.imageNameCell)) = .threw (thrownMessage t) := by
      simp only [attemptRow, hs]
      rw [if_neg (by simp)]
      rw [tryCandidates_append_skip env tempDir (jsString row.idCell) pre (url :: post) hpre]
      simp [tryCandidates, hurl, hw]
    simp only [processRow, hA]
    exact updateItem_twice_getElem? items i (fun x => { x with status := .downloading })
      (fun x => { x with status := .failed, error := some (thrownMessage t) }) it h
  · intro renv rest
    rfl

/-- Witness for C1: one concrete row whose resolver yields zero
candidates ends `failed` with cause "No images found". -/
theorem C1_rowProcessor_witness :
    (processRow { page := none, fetch := fun _ => none, writeThrow := none } "/tmp/w" 0
      { idCell := some "1", imageNameCell := some "a" }
      [{ id := "1", image_name := "a", status := .pending, error := none }]).1[0]? =
    some { id := "1", image_name := "a", status := .failed, error := some "No images found" } :=
  (C1_rowProcessor { page := none, fetch := fun _ => none, writeThrow := none } "/tmp/w" 0
    { idCell := some "1", imageNameCell := some "a" }
    [{ id := "1", image_name := "a", status := .pending, error := none }]
    { id := "1", image_name := "a", status := .pending, error := none } rfl).1 rfl

/-! ### Row-loop trace invariants -/

lemma processRow_fst_map_id (env : RowEnv) (tempDir : String) (i : Nat) (row : RawRow)
    (items : List ProgressItem) :
    ((processRow env tempDir i row items).1).map (·.id) = items.map (·.id) := by
  cases hA : attemptRow env tempDir (jsString row.idCell)
      (sanitizePhrase (jsString row.imageNameCell)) <;>
    simp only [processRow, hA] <;>
    exact updateItem_twice_map_id _ _ _ _ (fun _ => rfl) (fun _ => rfl)

lemma processRow_progress_ids (env : RowEnv) (tempDir : String) (i : Nat) (row : RawRow)
    (items : List ProgressItem) (its : List ProgressItem) :
    Event.progress its ∈ (processRow env tempDir i row items).2.1 →
    its.map (·.id) = items.map (·.id) := by
  intro hm
  cases hA : attemptRow env tempDir (jsString row.idCell)
      (sanitizePhrase (jsString row.imageNameCell)) with
  | noImages =>
    simp [processRow, hA] at hm
    rcases hm with rfl | rfl
    · exact updateItem_map_id _ _ _ (fun _ => rfl)
    · exact updateItem_twice_map_id _ _ _ _ (fun _ => rfl) (fun _ => rfl)
  | succeeded p bytes =>
    simp [processRow, hA] at hm
    rcases hm with rfl | rfl
    · exact updateItem_map_id _ _ _ (fun _ => rfl)
    · exact updateItem_twice_map_id _ _ _ _ (fun _ => rfl) (fun _ => rfl)
  | exhausted =>
    simp [processRow, hA] at hm
    rcases hm with rfl | rfl
    · exact updateItem_map_id _ _ _ (fun _ => rfl)
    · exact updateItem_twice_map_id _ _ _ _ (fun _ => rfl) (fun _ => rfl)
  | threw m =>
    simp [processRow, hA] at hm
    rcases hm with rfl | rfl
    · exact updateItem_map_id _ _ _ (fun _ => rfl)
    · exact updateItem_twice_map_id _ _ _ _ (fun _ => rfl) (fun _ => rfl)

lemma processRow_countProgress (env : RowEnv) (tempDir : String) (i : Nat) (row : RawRow)
    (items : List ProgressItem) :
    countEv isProgressEv (processRow env tempDir i row items).2.1 = 2 := by
  cases hA : attemptRow env tempDir (jsString row.idCell)
      (sanitizePhrase (jsString row.imageNameCell)) <;>
    simp [processRow, hA, countEv, isProgressEv]

lemma processRow_no_complete (env : RowEnv) (tempDir : String) (i : Nat) (row : RawRow)
    (items : List ProgressItem) (u : String) :
    Event.complete u ∉ (processRow env tempDir i row items).2.1 := by
  cases hA : attemptRow env tempDir (jsString row.idCell)
      (sanitizePhrase (jsString row.imageNameCell)) <;>
    simp [processRow, hA]

lemma processRow_no_error (env : RowEnv) (tempDir : String) (i : Nat) (row : RawRow)
    (items : List ProgressItem) (m : String) :
    Event.error m ∉ (processRow env tempDir i row items).2.1 := by
  cases hA : attemptRow env tempDir (jsString row.idCell)
      (sanitizePhrase (jsString row.imageNameCell)) <;>
    simp [processRow, hA]

lemma processRow_countClose (env : RowEnv) (tempDir : String) (i : Nat) (row : RawRow)
    (items : List ProgressItem) :
    countEv isCloseEv (processRow env tempDir i row items).2.1 = 0 := by
  cases hA : attemptRow env tempDir (jsString row.idCell)
      (sanitizePhrase (jsString row.imageNameCell)) <;>
    simp [processRow, hA, countEv, isCloseEv]

lemma processRows_fst_map_id (renv : Nat → RowEnv) (tempDir : String) :
    ∀ (rows : List RawRow) (i : Nat) (items : List ProgressItem),
      ((processRows renv tempDir i rows items).1).map (·.id) = items.map (·.id) := by
  intro rows
  induction rows with
  | nil => intro i items; rfl
  | cons row rest ih =>
    intro i items
    simp only [processRows]
    rw [ih (i + 1) _, processRow_fst_map_id]

lemma processRows_progress_ids (renv : Nat → RowEnv) (tempDir : String) :
    ∀ (rows : List RawRow) (i : Nat) (items : List ProgressItem) (its : List ProgressItem),
      Event.progress its ∈ (processRows renv tempDir i rows items).2.1 →
      its.map (·.id) = items.map (·.id) := by
  intro rows
  induction rows with
  | nil => intro i items its h; simp [processRows] at h
  | cons row rest ih =>
    intro i items its h
    simp only [processRows, List.mem_append] at h
    rcases h with h | h
    · exact processRow_progress_ids _ _ _ _ _ _ h
    · rw [ih (i + 1) _ its h, processRow_fst_map_id]

lemma processRows_countProgress (renv : Nat → RowEnv) (tempDir : String) :
    ∀ (rows : List RawRow) (i : Nat) (items : List ProgressItem),
      countEv isProgressEv (processRows renv tempDir i rows items).2.1 = 2 * rows.length := by
  intro rows
  induction rows with
  | nil => intro i items; rfl
  | cons row rest ih =>
    intro i items
    simp only [processRows, countEv_append, processRow_countProgress, ih (i + 1),
      List.length_cons]
    ring

lemma processRows_no_complete (renv : Nat → RowEnv) (tempDir : String) :
    ∀ (rows : List RawRow) (i : Nat) (items : List ProgressItem) (u : String),
      Event.complete u ∉ (processRows renv tempDir i rows items).2.1 := by
  intro rows
  induction rows with
  | nil => intro i items u h; simp [processRows] at h
  | cons row rest ih =>
    intro i items u h
    simp only [processRows, List.mem_append] at h
    rcases h with h | h
    · exact processRow_no_complete _ _ _ _ _ _ h
    · exact ih (i + 1) _ u h

lemma processRows_no_error (renv : Nat → RowEnv) (tempDir : String) :
    ∀ (rows : List RawRow) (i : Nat) (items : List ProgressItem) (m : String),
      Event.error m ∉ (processRows renv tempDir i rows items).2.1 := by
  intro rows
  induction rows with
  | nil => intro i items m h; simp [processRows] at h
  | cons row rest ih =>
    intro i items m h
    simp only [processRows, List.mem_append] at h
    rcases h with h | h
    · exact processRow_no_error _ _ _ _ _ _ h
    · exact ih (i + 1) _ m h

lemma processRows_countClose (renv : Nat → RowEnv) (tempDir : String) :
    ∀ (rows : List RawRow) (i : Nat) (items : List ProgressItem),
      countEv isCloseEv (processRows renv tempDir i rows items).2.1 = 0 := by
  intro rows
  induction rows with
  | nil => intro i items; rfl
  | cons row rest ih =>
    intro i items
    simp only [processRows, countEv_append, processRow_countClose, ih (i + 1)]

lemma initItems_map_id (rows : List RawRow) :
    (initItems rows).map (·.id) = rows.map fun r => jsString r.idCell := by
  simp [initItems, List.map_map]

/-- The valid-path unfolding of `postBody`. -/
lemma postBody_valid (env : Env) (first : RawRow) (rest : List RawRow)
    (h1 : env.upload = some (first :: rest)) (h2 : hasRequiredColumns first = true) :
    postBody env =
      [.progress (initItems (first :: rest)), .mkdirTemp (tempDirOf env)] ++
      (processRows env.rowEnv (tempDirOf env) 0 (first :: rest)
        (initItems (first :: rest))).2.1 ++
      [.mkdirZip (pathJoin tmpdir "image-downloader-zips"), .archiveRun (tempDirOf env)] ++
      (match env.archiveError with
       | some msg => [.error msg]
       | none =>
         (if env.zipExists then [.complete ("/api/download?id=" ++ toString env.now2)]
          else [.error "Failed to create ZIP file"]) ++
         [.rmTemp (tempDirOf env) env.rmThrow]) := by
  simp [postBody, h1, h2]

/-! ### Claim C2 -/

/-- Claim C2: For every valid input with N rows, the trace holds at least
N+1 `progress` frames, and every `progress` frame's items carry exactly
the input rows' identifiers in input order (hence have length exactly N
and preserve input row order). -/
theorem C2_progressFrames (env : Env) (first : RawRow) (rest : List RawRow)
    (h1 : env.upload = some (first :: rest)) (h2 : hasRequiredColumns first = true) :
    (first :: rest).length + 1 ≤ countEv isProgressEv (POST env) ∧
    ∀ its, Event.progress its ∈ POST env →
      its.map (·.id) = (first :: rest).map fun r => jsString r.idCell := by
  have hbody := postBody_valid env first rest h1 h2
  constructor
  · have hcount : countEv isProgressEv (POST env) = 2 * (first :: rest).length + 1 := by
      rw [POST, hbody]
      cases hE : env.archiveError with
      | some msg =>
        simp only [countEv_append, processRows_countProgress]
        simp [countEv, isProgressEv]
        omega
      | none =>
        cases hz : env.zipExists <;>
          (simp only [countEv_append, processRows_countProgress]
           simp [countEv, isProgressEv, hz]
           omega)
    rw [hcount]
    omega
  · intro its hm
    rw [POST, hbody] at hm
    have hfin : its = initItems (first :: rest) ∨
        Event.progress its ∈ (processRows env.rowEnv (tempDirOf env) 0 (first :: rest)
          (initItems (first :: rest))).2.1 := by
      cases hE : env.archiveError with
      | some msg => rw [hE] at hm; simpa using hm
      | none =>
        rw [hE] at hm
        cases hz : env.zipExists <;> rw [hz] at hm <;> simpa using hm
    rcases hfin with rfl | hfin
    · exact initItems_map_id _
    · rw [processRows_progress_ids env.rowEnv (tempDirOf env) _ 0 _ its hfin]
      exact initItems_map_id _

/-- Witness for C2: a one-row input yields at least two `progress` frames,
each carrying exactly the input identifier. -/
theorem C2_progressFrames_witness :
    2 ≤ countEv isProgressEv (POST
      { upload := some [{ idCell := some "7", imageNameCell := some "cat" }]
        rowEnv := fun _ => { page := none, fetch := fun _ => none, writeThrow := none }
        archiveError := none, zipExists := true, zipSize := 3, rmThrow := false
        now := 1, now2 := 2 }) :=
  (C2_progressFrames _ { idCell := some "7", imageNameCell := some "cat" } [] rfl rfl).1

/-! ### Claim C3 -/

lemma fsLookup_fsRemove (store : FileStore) (p : String) :
    fsLookup (fsRemove store p) p = none := by
  induction store with
  | nil => rfl
  | cons kv rest ih =>
    by_cases hk : kv.1 = p <;> simp [fsRemove, fsLookup, hk, ih]

/-- Claim C3: Retrieval: an absent `id` parameter yields status 400; the
identifier is reduced to its alphanumeric characters and only that
sanitized form reaches the file path; a missing artifact yields 404 and
leaves the store unchanged; a present artifact is returned with
`application/zip` content type and the fixed `images.zip` download
filename and is deleted, so an immediately repeated retrieval of the same
identifier yields 404. -/
theorem C3_retrieval (store : FileStore) (fid : String) (bytes : List Nat)
    (hfid : fid ≠ "") :
    (downloadGET store none).1.status = 400 ∧
    (∀ c ∈ (sanitizeFileId fid).data, isAlphanumChar c = true) ∧
    zipPathFor fid = pathJoin zipDirPath ("images-" ++ sanitizeFileId fid ++ ".zip") ∧
    (fsLookup store (zipPathFor fid) = none →
      (downloadGET store (some fid)).1.status = 404 ∧
      (downloadGET store (some fid)).2 = store) ∧
    (fsLookup store (zipPathFor fid) = some bytes →
      (downloadGET store (some fid)).1.status = 200 ∧
      (downloadGET store (some fid)).1.contentType = some "application/zip" ∧
      (downloadGET store (some fid)).1.contentDisposition =
        some "attachment; filename=\"images.zip\"" ∧
      (downloadGET store (some fid)).1.body = some bytes ∧
      (downloadGET (downloadGET store (some fid)).2 (some fid)).1.status = 404) := by
  refine ⟨rfl, ?_, rfl, ?_, ?_⟩
  · intro c hc
    simp only [sanitizeFileId, String.data] at hc
    exact (List.mem_filter.mp hc).2
  · intro hnone
    simp [downloadGET, hfid, hnone]
  · intro hsome
    have hres : downloadGET store (some fid) =
        ({ status := 200, contentType := some "application/zip",
           contentDisposition := some "attachment; filename=\"images.zip\"",
           body := some bytes, errorMsg := none }, fsRemove store (zipPathFor fid)) := by
      simp [downloadGET, hfid, hsome]
    refine ⟨by rw [hres], by rw [hres], by rw [hres], by rw [hres], ?_⟩
    rw [hres]
    simp [downloadGET, hfid, fsLookup_fsRemove]

/-- Witness for C3: with one concrete stored artifact, the first
retrieval returns it and the immediately repeated retrieval yields 404. -/
theorem C3_retrieval_witness :
    (downloadGET (downloadGET [(zipPathFor "9", [1, 2, 3])] (some "9")).2 (some "9")).1.status =
      404 :=
  ((C3_retrieval [(zipPathFor "9", [1, 2, 3])] "9" [1, 2, 3]
    (by decide)).2.2.2.2 rfl).2.2.2.2

/-! ### Claim C4 -/

/-- Claim C4: If the parsed table has zero rows, or its first row lacks an
`id` or an `image_name` column, the trace is exactly one `error` frame
followed by the two writer-close invocations: no `progress` frame, no row
processing and no file-system event. Only the first row is checked: with a
valid first row the initial `progress` frame is emitted whatever the
remaining rows contain. -/
theorem C4_validation (env : Env) :
    (env.upload = some [] →
      POST env = [.error "Excel file is empty", .closeWriter, .closeWriter]) ∧
    (∀ first rest, env.upload = some (first :: rest) → hasRequiredColumns first = false →
      POST env = [.error "Excel file must have \"id\" and \"image_name\" columns",
        .closeWriter, .closeWriter]) ∧
    (∀ first rest, env.upload = some (first :: rest) → hasRequiredColumns first = true →
      Event.progress (initItems (first :: rest)) ∈ POST env) := by
  refine ⟨?_, ?_, ?_⟩
  · intro h
    simp [POST, postBody, h]
  · intro first rest h hcols
    simp [POST, postBody, h, hcols]
  · intro first rest h hcols
    rw [POST, postBody_valid env first rest h hcols]
    simp

/-- Witness for C4: a table whose first row lacks `image_name` produces
exactly one `error` frame and nothing else before the closes. -/
theorem C4_validation_witness :
    POST { upload := some [{ idCell := some "1", imageNameCell := none }]
           rowEnv := fun _ => { page := none, fetch := fun _ => none, writeThrow := none }
           archiveError := none, zipExists := true, zipSize := 3, rmThrow := false
           now := 1, now2 := 2 } =
    [.error "Excel file must have \"id\" and \"image_name\" columns",
      .closeWriter, .closeWriter] :=
  (C4_validation _).2.1 { idCell := some "1", imageNameCell := none } [] rfl rfl

/-! ### Claim C5 -/

/-- Claim C5: The Phrase Resolver returns at most 5 candidate locators; a
transport failure or non-success response yields the empty list (the
function is total, never propagating an error); tiers are consulted in
order, a later tier only when every earlier tier yielded zero locators;
and the 5-element truncation applies to whichever tier produced the
result. -/
theorem C5_resolver (q : String) (resp : Option BingPage) (p : BingPage) :
    (searchBingImages q resp).length ≤ 5 ∧
    searchBingImages q none = [] ∧
    (extractTier1 p ≠ [] → extractImageUrls p = extractTier1 p) ∧
    (extractTier1 p = [] → extractTier2 p ≠ [] → extractImageUrls p = extractTier2 p) ∧
    (extractTier1 p = [] → extractTier2 p = [] → extractImageUrls p = extractTier3 p) ∧
    searchBingImages q (some p) = (extractImageUrls p).take 5 := by
  refine ⟨?_, rfl, ?_, ?_, ?_, rfl⟩
  · cases resp with
    | none => simp [searchBingImages]
    | some page =>
      simp only [searchBingImages, List.length_take]
      omega
  · intro h1
    have : ¬ (extractTier1 p).length = 0 := by simpa using h1
    simp [extractImageUrls, this]
  · intro h1 h2
    simp [extractImageUrls, h1]
    intro h
    exact absurd h h2
  · intro h1 h2
    simp [extractImageUrls, h1, h2]

/-- Witness for C5: a page whose first tier is empty but whose second
tier holds one absolute URL resolves through tier 2. -/
theorem C5_resolver_witness :
    extractImageUrls { iuscAnchors := [], mimgElements := [{ src := some "http://a", dataSrc := none }], rawMurlMatches := ["x"] } =
      extractTier2 { iuscAnchors := [], mimgElements := [{ src := some "http://a", dataSrc := none }], rawMurlMatches := ["x"] } :=
  (C5_resolver "q" none _).2.2.2.1 rfl (by decide)

/-! ### Claims C6, C7, C8 -/

/-- A row environment whose search fails at transport level. -/
def emptyRowEnv : RowEnv := { page := none, fetch := fun _ => none, writeThrow := none }

/-- The event is an `fs.rmSync` attempt on the working directory. -/
def isRmEv : Event → Bool
  | .rmTemp _ _ => true
  | _ => false

/-- One valid row, archive resolves, ZIP reported existing but with size
0: the code still signals completion. -/
def envC6 : Env :=
  { upload := some [{ idCell := some "1", imageNameCell := some "cat" }]
    rowEnv := fun _ => emptyRowEnv
    archiveError := none, zipExists := true, zipSize := 0, rmThrow := false
    now := 7, now2 := 9 }

/-- Counterexample to C6 as stated: a run whose resulting archive file
exists with size zero still emits the `complete` frame — the code checks
`existsSync` but only logs `statSync(..).size`, never testing it. -/
theorem C6_counterexample :
    Event.complete "/api/download?id=9" ∈ POST envC6 ∧ envC6.zipSize = 0 := by decide

/-- Claim C6 (amended): The `complete` frame is emitted only after the
archive promise resolved without a stream error and `existsSync` confirmed
the archive file exists (its size is read and logged but not checked); if
the underlying write stream reports an error the request instead ends with
an `error` frame carrying that message and no `complete` frame. -/
theorem C6_amended (env : Env) :
    (∀ u, Event.complete u ∈ POST env →
      env.archiveError = none ∧ env.zipExists = true) ∧
    (∀ first rest msg, env.upload = some (first :: rest) →
      hasRequiredColumns first = true → env.archiveError = some msg →
      Event.error msg ∈ POST env ∧ ∀ u, Event.complete u ∉ POST env) := by
  constructor
  · intro u hu
    cases hU : env.upload with
    | none => simp [POST, postBody, hU] at hu
    | some rows =>
      cases rows with
      | nil => simp [POST, postBody, hU] at hu
      | cons first rest =>
        by_cases hcols : hasRequiredColumns first
        · rw [POST, postBody_valid env first rest hU hcols] at hu
          cases hE : env.archiveError with
          | some msg =>
            rw [hE] at hu
            simp at hu
            exact absurd hu (processRows_no_complete _ _ _ _ _ _)
          | none =>
            cases hz : env.zipExists with
            | true => exact ⟨rfl, rfl⟩
            | false =>
              rw [hE, hz] at hu
              simp at hu
              exact absurd hu (processRows_no_complete _ _ _ _ _ _)
        · simp only [Bool.not_eq_true] at hcols
          simp [POST, postBody, hU, hcols] at hu
  · intro first rest msg hU hcols hE
    constructor
    · rw [POST, postBody_valid env first rest hU hcols, hE]
      simp
    · intro u hu
      rw [POST, postBody_valid env first rest hU hcols, hE] at hu
      simp at hu
      exact absurd hu (processRows_no_complete _ _ _ _ _ _)

/-- As `envC6` but the archiver write stream reports an error. -/
def envC6err : Env :=
  { upload := some [{ idCell := some "1", imageNameCell := some "cat" }]
    rowEnv := fun _ => emptyRowEnv
    archiveError := some "boom", zipExists := false, zipSize := 0, rmThrow := false
    now := 7, now2 := 9 }

/-- Witness for the amended C6: a concrete archiver stream error ends the
request with an `error` frame carrying its message. -/
theorem C6_amended_witness : Event.error "boom" ∈ POST envC6err :=
  ((C6_amended envC6err).2 { idCell := some "1", imageNameCell := some "cat" } [] "boom"
    rfl rfl rfl).1

/-- One valid row and an archiver stream error: the working directory was
created but the `rmSync` cleanup is skipped. -/
def envC7 : Env :=
  { upload := some [{ idCell := some "1", imageNameCell := some "cat" }]
    rowEnv := fun _ => emptyRowEnv
    archiveError := some "disk full", zipExists := false, zipSize := 0, rmThrow := false
    now := 7, now2 := 9 }

/-- Counterexample to C7 as stated: when archive construction itself
fails, the created working directory is never deleted — the `rmSync` sits
after the archive promise on the non-throwing path, not in a `finally`. -/
theorem C7_counterexample :
    Event.mkdirTemp (tempDirOf envC7) ∈ POST envC7 ∧
    countEv isRmEv (POST envC7) = 0 := by decide

/-- Claim C7 (amended): On every request that reaches the archive phase and
whose archive promise resolves without a stream error, the working
directory deletion is attempted (whether or not the ZIP existence check
then succeeds), and a deletion failure is swallowed: the frames written to
the stream are independent of whether `rmSync` throws. When archive
construction fails, control jumps to the `catch` and the working directory
is not deleted (see the counterexample). -/
theorem C7_amended (env : Env) (first : RawRow) (rest : List RawRow)
    (h1 : env.upload = some (first :: rest)) (h2 : hasRequiredColumns first = true)
    (h3 : env.archiveError = none) :
    Event.rmTemp (tempDirOf env) env.rmThrow ∈ POST env ∧
    ∀ b₁ b₂ : Bool,
      (POST { env with rmThrow := b₁ }).filter isFrameEv =
      (POST { env with rmThrow := b₂ }).filter isFrameEv := by
  constructor
  · rw [POST, postBody_valid env first rest h1 h2, h3]
    cases hz : env.zipExists <;> simp
  · intro b₁ b₂
    have hh : ∀ b : Bool,
        (POST { env with rmThrow := b }).filter isFrameEv =
          Event.progress (initItems (first :: rest)) ::
          ((processRows env.rowEnv (tempDirOf env) 0 (first :: rest)
            (initItems (first :: rest))).2.1.filter isFrameEv) ++
          (if env.zipExists then [Event.complete ("/api/download?id=" ++ toString env.now2)]
           else [Event.error "Failed to create ZIP file"]) := by
      intro b
      rw [POST, postBody_valid { env with rmThrow := b } first rest h1 h2]
      cases hz : env.zipExists <;>
        simp [h3, hz, tempDirOf, List.filter_append, isFrameEv]
    rw [hh b₁, hh b₂]

/-- As `envC7` but the archive succeeds and `rmSync` throws. -/
def envC7ok : Env :=
  { upload := some [{ idCell := some "1", imageNameCell := some "cat" }]
    rowEnv := fun _ => emptyRowEnv
    archiveError := none, zipExists := true, zipSize := 4, rmThrow := true
    now := 7, now2 := 9 }

/-- Witness for the amended C7: on a concrete archive-success run whose
`rmSync` throws, the deletion attempt is in the trace. -/
theorem C7_amended_witness : Event.rmTemp (tempDirOf envC7ok) true ∈ POST envC7ok :=
  (C7_amended envC7ok { idCell := some "1", imageNameCell := some "cat" } [] rfl rfl rfl).1

/-- A request with no uploaded file. -/
def envC8 : Env :=
  { upload := none, rowEnv := fun _ => emptyRowEnv
    archiveError := none, zipExists := true, zipSize := 1, rmThrow := false
    now := 0, now2 := 0 }

/-- Counterexample to C8 as stated: on the missing-file validation exit,
`writer.close()` is invoked twice — once explicitly before the early
`return` and once more by the `finally` block. -/
theorem C8_counterexample :
    countEv isCloseEv (POST envC8) = 2 ∧ ¬ countEv isCloseEv (POST envC8) = 1 := by decide

/-- Claim C8 (amended): Close discipline: `writer.close()` is invoked at least once on every
exit path; on the three early validation exits (missing file, empty
table, missing required columns) it is invoked exactly twice — the
explicit close before the `return` plus the `finally` close — while on
every run that passes validation (archive success and archive failure
alike) it is invoked exactly once, by the `finally`. -/
theorem C8_amended (env : Env) :
    1 ≤ countEv isCloseEv (POST env) ∧
    (env.upload = none → countEv isCloseEv (POST env) = 2) ∧
    (env.upload = some [] → countEv isCloseEv (POST env) = 2) ∧
    (∀ first rest, env.upload = some (first :: rest) → hasRequiredColumns first = false →
      countEv isCloseEv (POST env) = 2) ∧
    (∀ first rest, env.upload = some (first :: rest) → hasRequiredColumns first = true →
      countEv isCloseEv (POST env) = 1) := by
  refine ⟨?_, ?_, ?_, ?_, ?_⟩
  · rw [POST, countEv_append]
    simp [countEv, isCloseEv]
  · intro h
    simp [POST, postBody, h, countEv, isCloseEv]
  · intro h
    simp [POST, postBody, h, countEv, isCloseEv]
  · intro first rest h hcols
    simp [POST, postBody, h, hcols, countEv, isCloseEv]
  · intro first rest h hcols
    rw [POST, postBody_valid env first rest h hcols]
    simp only [countEv_append, processRows_countClose]
    cases hE : env.archiveError with
    | some msg => simp [countEv, isCloseEv]
    | none => cases hz : env.zipExists <;> simp [countEv, isCloseEv]

/-- A one-row request that passes validation. -/
def envC8ok : Env :=
  { upload := some [{ idCell := some "1", imageNameCell := some "cat" }]
    rowEnv := fun _ => emptyRowEnv
    archiveError := none, zipExists := true, zipSize := 1, rmThrow := false
    now := 0, now2 := 0 }

/-- Witness for the amended C8: a concrete run that passes validation
invokes `writer.close()` exactly once. -/
theorem C8_amended_witness :
    countEv isCloseEv (POST envC8ok) = 1 :=
  (C8_amended envC8ok).2.2.2.2 { idCell := some "1", imageNameCell := some "cat" } [] rfl rfl

/-! ### Claim C9 -/

/-- Two rows whose searches both yield zero candidates. -/
def envC9 : Env :=
  { upload := some [{ idCell := some "1", imageNameCell := some "a" },
                    { idCell := some "2", imageNameCell := some "b" }]
    rowEnv := fun _ => emptyRowEnv
    archiveError := none, zipExists := true, zipSize := 1, rmThrow := false
    now := 0, now2 := 0 }

/-- Counterexample to C9 as stated: with two rows that each fail with
zero candidates, both rows are attempted (five `progress` frames) yet no
inter-row pause at all is executed — the `continue` on the zero-candidates
path skips the 500 ms sleep. -/
theorem C9_counterexample :
    countEv isSleepEv (POST envC9) = 0 ∧ countEv isProgressEv (POST envC9) = 5 := by decide

/-- Claim C9 (amended): Rows are processed strictly one at a time in input
order (the loop's trace is the first row's events followed by the
remaining rows' events, started on the first row's resulting state), and
the fixed 500 ms pause follows every row's attempt except on the
zero-candidates path, whose `continue` skips the pause and dequeues the
next row immediately. -/
theorem C9_interRowPause (env : RowEnv) (tempDir : String) (i : Nat) (row : RawRow)
    (items : List ProgressItem) :
    (attemptRow env tempDir (jsString row.idCell)
        (sanitizePhrase (jsString row.imageNameCell)) = .noImages →
      countEv isSleepEv (processRow env tempDir i row items).2.1 = 0) ∧
    (attemptRow env tempDir (jsString row.idCell)
        (sanitizePhrase (jsString row.imageNameCell)) ≠ .noImages →
      countEv isSleepEv (processRow env tempDir i row items).2.1 = 1 ∧
      (processRow env tempDir i row items).2.1.getLast? = some (.sleep 500)) ∧
    (∀ (renv : Nat → RowEnv) (rest : List RawRow),
      (processRows renv tempDir i (row :: rest) items).2.1 =
        (processRow (renv i) tempDir i row items).2.1 ++
        (processRows renv tempDir (i + 1) rest
          (processRow (renv i) tempDir i row items).1).2.1) := by
  refine ⟨?_, ?_, fun renv rest => rfl⟩
  · intro hA
    simp [processRow, hA, countEv, isSleepEv]
  · intro hne
    cases hA : attemptRow env tempDir (jsString row.idCell)
        (sanitizePhrase (jsString row.imageNameCell)) with
    | noImages => exact absurd hA hne
    | succeeded p bytes => exact ⟨by simp [processRow, hA, countEv, isSleepEv], by simp [processRow, hA]⟩
    | exhausted => exact ⟨by simp [processRow, hA, countEv, isSleepEv], by simp [processRow, hA]⟩
    | threw m => exact ⟨by simp [processRow, hA, countEv, isSleepEv], by simp [processRow, hA]⟩

/-- Witness for the amended C9: a concrete zero-candidates row emits no
sleep event. -/
theorem C9_interRowPause_witness :
    countEv isSleepEv (processRow emptyRowEnv "/tmp/w" 0
      { idCell := some "1", imageNameCell := some "a" } []).2.1 = 0 :=
  (C9_interRowPause emptyRowEnv "/tmp/w" 0
    { idCell := some "1", imageNameCell := some "a" } []).1 rfl

/-! ### Claim C10 -/

/-- One row whose identifier embeds a `..` traversal sequence, with a
viable candidate image. -/
def envC10 : Env :=
  { upload := some [{ idCell := some "../evil", imageNameCell := some "cat" }]
    rowEnv := fun _ =>
      { page := some { iuscAnchors := [{ murl := some "http://a/x" }],
                       mimgElements := [], rawMurlMatches := [] }
        fetch := fun _ => some { contentType := some "image/png",
                                 data := List.replicate 1000 0 }
        writeThrow := none }
    archiveError := none, zipExists := true, zipSize := 5, rmThrow := false
    now := 7, now2 := 9 }

set_option maxRecDepth 1000000

/-- Claim C10: Every file written on success has path
`join(workingDirectory, id ++ extension)` with the record's `id` used
verbatim; the search query is the phrase with `/` and `\` replaced by
spaces; and for a concrete input whose `id` is `../evil` the written
file's resolved path `/tmp/evil.png` lies outside the working
directory. -/
theorem C10_pathTraversal (env : RowEnv) (tempDir : String) (i : Nat) (row : RawRow)
    (items : List ProgressItem) (p : String) (bytes : List Nat) :
    (Event.write p bytes ∈ (processRow env tempDir i row items).2.1 →
      ∃ ext, p = pathJoin tempDir (jsString row.idCell ++ ext)) ∧
    Event.search (sanitizePhrase (jsString row.imageNameCell)) ∈
      (processRow env tempDir i row items).2.1 ∧
    sanitizePhrase "a/b\\c" = "a b c" ∧
    (Event.write "/tmp/evil.png" (List.replicate 1000 0) ∈ POST envC10 ∧
      isWithinDir (tempDirOf envC10) "/tmp/evil.png" = false) := by
  refine ⟨?_, ?_, by decide, ?_⟩
  · intro hw
    cases hA : attemptRow env tempDir (jsString row.idCell)
        (sanitizePhrase (jsString row.imageNameCell)) with
    | noImages => simp [processRow, hA] at hw
    | exhausted => simp [processRow, hA] at hw
    | threw m => simp [processRow, hA] at hw
    | succeeded p0 b0 =>
      simp [processRow, hA] at hw
      obtain ⟨rfl, rfl⟩ := hw
      unfold attemptRow at hA
      by_cases hlen : (searchBingImages (sanitizePhrase (jsString row.imageNameCell))
          env.page).length = 0
      · rw [if_pos hlen] at hA
        simp at hA
      · rw [if_neg hlen] at hA
        exact tryCandidates_succeeded_path env tempDir _ _ _ _ hA
  · cases hA : attemptRow env tempDir (jsString row.idCell)
        (sanitizePhrase (jsString row.imageNameCell)) <;> simp [processRow, hA]
  · constructor
    · decide
    · decide

/-- Witness for C10: the sanitized phrase search event is in a concrete
row's trace. -/
theorem C10_pathTraversal_witness :
    Event.search "cat" ∈ (processRow emptyRowEnv "/tmp/w" 0
      { idCell := some "5", imageNameCell := some "cat" } []).2.1 :=
  (C10_pathTraversal emptyRowEnv "/tmp/w" 0
    { idCell := some "5", imageNameCell := some "cat" } [] "" []).2.1

end BulkImageDownloader
